import Mathlib

/-!
Shallow embedding of the month-scoped habit-tracker core (types.ts, constants).
JavaScript numbers that only ever hold small integers are modelled as `Nat`/`Int`;
the one fractional computation (percentages) is modelled over `ℚ` with exact
arithmetic, and `Math.round` as `⌊q + 1/2⌋` (round half toward +∞), its exact-value
semantics.  JavaScript array reads out of range yield `undefined`, which every use
in this program treats as falsy; such reads are modelled as `false`.
-/

/-- `Habit` record: id, name, icon, goal, checks (one boolean per day). -/
structure Habit where
  id : String
  name : String
  icon : String
  goal : Nat
  checks : List Bool
deriving DecidableEq, Repr

/-- `MentalState` record: 1-based day number, mood and motivation (clamped 0–10). -/
structure MentalState where
  day : Nat
  mood : Int
  motivation : Int
deriving DecidableEq, Repr

/-- Reading `l[i]` in JavaScript: an out-of-range (or hole) read is `undefined`,
which every read site of `checks` in this program coerces to `false`
(`h.checks[i] ? 1 : 0`, `h.checks[i] || false`, `filter(Boolean)`). -/
def getIdxJs (l : List Bool) (i : Nat) : Bool :=
  l.getD i false

/-- Writing `l[i] = v` in JavaScript: an in-range write replaces the element; a
write past the end grows the array to length `i + 1`, the intervening slots being
holes, which this program reads back as `false` (falsy reads; serialized as
`null` and reconciled to `false` on the next load). -/
def setIdxJs (l : List Bool) (i : Nat) (v : Bool) : List Bool :=
  if i < l.length then l.set i v
  else l ++ List.replicate (i - l.length) false ++ [v]

/-- One habit's update inside `toggleCheck`: a non-matching habit is returned
unchanged, a matching one gets `newChecks[dayIndex] = !newChecks[dayIndex]` on a
copy of its checks. -/
def toggleHabit (habitId : String) (dayIndex : Nat) (h : Habit) : Habit :=
  if h.id ≠ habitId then h
  else ⟨h.id, h.name, h.icon, h.goal, setIdxJs h.checks dayIndex (!(getIdxJs h.checks dayIndex))⟩

/-- `toggleCheck(habitId, dayIndex)` over a habit list: maps `toggleHabit` over
every habit of the list. -/
def toggleCheck (habitId : String) (dayIndex : Nat) (habits : List Habit) : List Habit :=
  habits.map (toggleHabit habitId dayIndex)

/-- The two mental-state fields a `handleMentalChange` call can address. -/
inductive MentalField where
  | mood
  | motivation
deriving DecidableEq, Repr

/-- Projection of the addressed field. -/
def MentalState.fieldVal (e : MentalState) : MentalField → Int
  | .mood => e.mood
  | .motivation => e.motivation

/-- The field a `handleMentalChange` call does not address. -/
def MentalField.other : MentalField → MentalField
  | .mood => .motivation
  | .motivation => .mood

/-- Write `v` to the addressed field, keeping `day` and the other field. -/
def MentalState.withField (e : MentalState) : MentalField → Int → MentalState
  | .mood, v => ⟨e.day, v, e.motivation⟩
  | .motivation, v => ⟨e.day, e.mood, v⟩

/-- `parseInt(value)` restricted to its decimal behaviour: skip leading
whitespace, read an optional sign, then the longest run of decimal digits;
`none` models `NaN` (no digit found). -/
def jsParseInt (s : String) : Option Int :=
  let cs := s.toList.dropWhile Char.isWhitespace
  let signAndRest : Int × List Char :=
    match cs with
    | '-' :: rest => (-1, rest)
    | '+' :: rest => (1, rest)
    | _ => (1, cs)
  let ds := signAndRest.2.takeWhile Char.isDigit
  if ds.isEmpty then none
  else some (signAndRest.1 * (ds.foldl (fun a c => a * 10 + (c.toNat - 48)) 0 : Nat))

/-- The numeric value `handleMentalChange` stores:
`value === '' ? 0 : Math.min(10, Math.max(0, parseInt(value) || 0))`. -/
def jsMentalNumVal (value : String) : Int :=
  if value = "" then 0 else min 10 (max 0 ((jsParseInt value).getD 0))

/-- `handleMentalChange(dayIndex, field, value)`: copies the array and replaces
the entry at `dayIndex` by a copy with the addressed field set to the parsed,
clamped value.  The rendering layer only issues day indexes of the current
month, so `dayIndex < ms.length`; the embedding covers that range. -/
def handleMentalChange (dayIndex : Nat) (field : MentalField) (value : String)
    (ms : List MentalState) : List MentalState :=
  ms.set dayIndex ((ms.getD dayIndex ⟨0, 0, 0⟩).withField field (jsMentalNumVal value))

/-- Load-time reconciliation of one habit's checks:
`h.checks.length === daysInMonth ? h.checks
 : Array(daysInMonth).fill(false).map((_, i) => h.checks[i] || false)`. -/
def adjustChecks (daysInMonth : Nat) (checks : List Bool) : List Bool :=
  if checks.length = daysInMonth then checks
  else (List.range daysInMonth).map fun i => getIdxJs checks i

/-- Load-time reconciliation of the stored habit list (`adjustedHabits`). -/
def adjustedHabits (daysInMonth : Nat) (habits : List Habit) : List Habit :=
  habits.map fun h => ⟨h.id, h.name, h.icon, h.goal, adjustChecks daysInMonth h.checks⟩

/-- Load-time reconciliation of the stored mental state (`adjustedMental`):
for each day slot use the stored entry found by day number, else a zero entry. -/
def adjustedMental (daysInMonth : Nat) (stored : List MentalState) : List MentalState :=
  (List.range daysInMonth).map fun i =>
    (stored.find? (fun m => m.day = i + 1)).getD ⟨i + 1, 0, 0⟩

/-- `generateEmptyMentalState(days)`: entries `{day: i + 1, mood: 0, motivation: 0}`. -/
def generateEmptyMentalState (days : Nat) : List MentalState :=
  (List.range days).map fun i => ⟨i + 1, 0, 0⟩

/-- Carry-over branch of `initialHabits`: copy every previous-month habit,
resetting its checks to all-`false` of the new month's length. -/
def carryOverHabits (daysInMonth : Nat) (prev : List Habit) : List Habit :=
  prev.map fun h => ⟨h.id, h.name, h.icon, h.goal, List.replicate daysInMonth false⟩

/-- Template entry of `DEFAULT_HABITS_TEMPLATE` (a habit without checks). -/
structure TemplateHabit where
  id : String
  name : String
  icon : String
  goal : Nat
deriving DecidableEq, Repr

/-- `DEFAULT_HABITS_TEMPLATE` from constants: the fixed ten default habits. -/
def DEFAULT_HABITS_TEMPLATE : List TemplateHabit :=
  [⟨"1", "Wake up at 05:00", "⏰", 30⟩,
   ⟨"2", "Gym", "💪", 30⟩,
   ⟨"3", "Reading / Learning", "📖", 30⟩,
   ⟨"4", "Day Planning", "📝", 30⟩,
   ⟨"5", "Budget Tracking", "💰", 30⟩,
   ⟨"6", "Project Work", "🚀", 30⟩,
   ⟨"7", "No Alcohol", "🍷", 30⟩,
   ⟨"8", "Social Media Detox", "🌿", 30⟩,
   ⟨"9", "Goal Journaling", "📔", 30⟩,
   ⟨"10", "Cold Shower", "🚿", 30⟩]

/-- Default-template branch of `initialHabits`: each template habit with an
all-`false` checks sequence of the month's length. -/
def defaultHabits (daysInMonth : Nat) : List Habit :=
  DEFAULT_HABITS_TEMPLATE.map fun t => ⟨t.id, t.name, t.icon, t.goal, List.replicate daysInMonth false⟩

/-- `Math.round` on an exact rational value: round half toward positive infinity. -/
def jsRound (q : ℚ) : Int :=
  ⌊q + 1 / 2⌋

/-- One row of the `dailyStats` table. -/
structure DayStat where
  day : Nat
  done : Nat
  notDone : Nat
  percent : Int
deriving DecidableEq, Repr

/-- The `dailyStats` entry for day index `i`: `done` by a fold over the habits
(`acc + (h.checks[i] ? 1 : 0)`), `notDone` the complement, `percent` the rounded
ratio (0 for an empty habit list). -/
def dayStatAt (habits : List Habit) (i : Nat) : DayStat :=
  let doneCount := habits.foldl (fun acc h => acc + (if getIdxJs h.checks i then 1 else 0)) 0
  let notDoneCount := habits.length - doneCount
  let percent : Int :=
    if 0 < habits.length then jsRound ((doneCount : ℚ) / (habits.length : ℚ) * 100) else 0
  ⟨i + 1, doneCount, notDoneCount, percent⟩

/-- `dailyStats`: one `DayStat` per day index of the month. -/
def dailyStats (daysInMonth : Nat) (habits : List Habit) : List DayStat :=
  (List.range daysInMonth).map (dayStatAt habits)

/-- `habitTotal`: count of `true` entries in `checks` (`filter(Boolean).length`). -/
def habitTotal (h : Habit) : Nat :=
  h.checks.countP id

/-- The analysis-sidebar percentage for one habit:
`checkedCount = habit.checks.filter(Boolean).length`, `goal = daysInMonth`,
`percentage = goal > 0 ? (checkedCount / goal) * 100 : 0`. -/
def sidebarPercent (daysInMonth : Nat) (h : Habit) : ℚ :=
  let checkedCount := h.checks.countP id
  let goal := daysInMonth
  if 0 < goal then (checkedCount : ℚ) / (goal : ℚ) * 100 else 0

/-- The spec's wording of the sidebar figure, for comparison with the code's
`sidebarPercent`: `habitTotal / goal * 100` with the habit's stored goal. -/
def specHabitProgressPercent (h : Habit) : ℚ :=
  (habitTotal h : ℚ) / (h.goal : ℚ) * 100

/-- One week bucket of the habit grid header. -/
structure Week where
  label : String
  days : List Nat
deriving DecidableEq, Repr

/-- Body of the `weeks` while-loop.  `weekCount` starts at 1 and the loop stops
at the fourth block (which absorbs the remainder), so the loop never runs more
than four iterations; `fuel = 4` therefore reproduces the loop exactly while
keeping the recursion structural. -/
def weeksAux (daysInMonth : Nat) : Nat → Nat → Nat → List Week
  | 0, _, _ => []
  | fuel + 1, currentDay, weekCount =>
    if currentDay < daysInMonth then
      if weekCount = 4 then
        [⟨"Week " ++ toString weekCount,
          (List.range (daysInMonth - currentDay)).map (· + currentDay)⟩]
      else
        ⟨"Week " ++ toString weekCount, (List.range 7).map (· + currentDay)⟩ ::
          weeksAux daysInMonth fuel (currentDay + 7) (weekCount + 1)
    else []

/-- The `weeks` grouping: start at day 0, week 1. -/
def weeks (daysInMonth : Nat) : List Week :=
  weeksAux daysInMonth 4 0 1

/-- First habit matching an id (document order), as the grid reads it. -/
def findHabit (habits : List Habit) (habitId : String) : Option Habit :=
  habits.find? fun h => h.id = habitId

/-- The boolean the grid displays for `(habitId, dayIndex)`: the matching
habit's `checks[dayIndex]` (falsy when out of range or no habit matches). -/
def readCheck (habits : List Habit) (habitId : String) (dayIndex : Nat) : Bool :=
  match findHabit habits habitId with
  | some h => getIdxJs h.checks dayIndex
  | none => false

/-! ## Helper lemmas (shared) -/

/-- Reading any index of `adjustChecks` below the month length gives the
JavaScript read of the stored array at that index. -/
theorem adjustChecks_getD (d : Nat) (stored : List Bool) (i : Nat) (hi : i < d) :
    (adjustChecks d stored).getD i false = getIdxJs stored i := by
  unfold adjustChecks
  split
  · next hlen => simp [getIdxJs, hlen ▸ hi]

  · have hlt : i < ((List.range d).map fun j => getIdxJs stored j).length := by
      simpa using hi
    rw [List.getD_eq_getElem _ _ hlt]
    simp

/-- `adjustChecks` always produces a list of the month's length. -/
theorem adjustChecks_length (d : Nat) (stored : List Bool) :
    (adjustChecks d stored).length = d := by
  unfold adjustChecks
  split
  · next hlen => exact hlen
  · simp

/-- The JavaScript read, spelled as a dependent case split. -/
theorem getIdxJs_eq_dite (l : List Bool) (i : Nat) :
    getIdxJs l i = if hi : i < l.length then l.get ⟨i, hi⟩ else false := by
  unfold getIdxJs
  split
  · next hi => exact List.getD_eq_getElem _ _ hi
  · next hi => exact List.getD_eq_default _ _ (Nat.le_of_not_lt hi)

/-- Writing then reading the same index gives the written value. -/
theorem getIdxJs_setIdxJs_self (l : List Bool) (i : Nat) (v : Bool) :
    getIdxJs (setIdxJs l i v) i = v := by
  unfold getIdxJs setIdxJs
  split
  · next hi => simp [List.getD_eq_getElem, List.getElem_set_self, hi]
  · next hi =>
    have hle : l.length ≤ i := Nat.le_of_not_lt hi
    rw [List.getD_eq_getElem?_getD, List.append_assoc, List.getElem?_append_right hle]
    simp [hle]

/-- An in-range write keeps the length. -/
theorem setIdxJs_length (l : List Bool) (i : Nat) (v : Bool) (hi : i < l.length) :
    (setIdxJs l i v).length = l.length := by
  simp [setIdxJs, hi]

/-- An in-range write leaves every other index unchanged. -/
theorem setIdxJs_getD_ne (l : List Bool) (i : Nat) (v : Bool) (hi : i < l.length)
    (j : Nat) (hj : j ≠ i) : (setIdxJs l i v).getD j false = l.getD j false := by
  simp [setIdxJs, hi, List.getD_eq_getElem?_getD, List.getElem?_set_ne (Ne.symm hj)]

/-- An out-of-range write appends falsy holes and the written value. -/
theorem setIdxJs_out_of_range (l : List Bool) (i : Nat) (v : Bool) (hi : l.length ≤ i) :
    setIdxJs l i v = l ++ List.replicate (i - l.length) false ++ [v] := by
  simp [setIdxJs, Nat.not_lt.mpr hi]

/-- The fold computing `doneCount` counts the habits satisfying the check. -/
theorem foldl_add_ite_eq_countP {α : Type} (p : α → Bool) (l : List α) (acc : Nat) :
    l.foldl (fun a h => a + (if p h then 1 else 0)) acc = acc + l.countP p := by
  induction l generalizing acc with
  | nil => simp
  | cons x xs ih =>
    rw [List.foldl_cons, ih, List.countP_cons]
    cases hx : p x
    · simp [hx]
    · simp [hx]
      omega

/-! ## Claims -/

/-- C3: load-time reconciliation preserves every habit and its id, name, icon
and goal; each rebuilt checks list has length exactly `daysInMonth`, agrees with
the stored list at every stored index and is `false` beyond it; it is unchanged
when the stored length already matches; and a 28-entry stored list reconciled to
31 days is the original values followed by three `false` entries. -/
theorem reconciliation_preserves_by_index (d : Nat) (habits : List Habit) (stored : List Bool) :
    (adjustedHabits d habits).map (fun h => (h.id, h.name, h.icon, h.goal)) =
      habits.map (fun h => (h.id, h.name, h.icon, h.goal)) ∧
    (adjustedHabits d habits).length = habits.length ∧
    (∀ h ∈ adjustedHabits d habits, h.checks.length = d) ∧
    (adjustChecks d stored).length = d ∧
    (∀ i, i < d → (adjustChecks d stored).getD i false =
        if hi : i < stored.length then stored.get ⟨i, hi⟩ else false) ∧
    (stored.length = d → adjustChecks d stored = stored) ∧
    (stored.length = 28 → adjustChecks 31 stored = stored ++ [false, false, false]) := by
  refine ⟨?_, by simp [adjustedHabits], ?_, adjustChecks_length d stored, ?_, ?_, ?_⟩
  · simp [adjustedHabits, List.map_map]
  · intro h hh
    simp only [adjustedHabits, List.mem_map] at hh
    obtain ⟨a, -, rfl⟩ := hh
    exact adjustChecks_length d a.checks
  · intro i hi
    rw [adjustChecks_getD d stored i hi, getIdxJs_eq_dite]
  · intro hlen
    simp [adjustChecks, hlen]
  · intro h28
    apply List.ext_getElem
    · simp [adjustChecks_length, h28]
    · intro i hi₁ hi₂
      have hi31 : i < 31 := by simpa [adjustChecks_length] using hi₁
      have hadj := adjustChecks_getD 31 stored i hi31
      rw [List.getD_eq_getElem _ _ hi₁, getIdxJs_eq_dite] at hadj
      rw [hadj]
      by_cases hlt : i < stored.length
      · rw [dif_pos hlt, List.getElem_append_left hlt]
        simp
      · have hle : stored.length ≤ i := Nat.le_of_not_lt hlt
        rw [dif_neg hlt, List.getElem_append_right hle]
        have hk : i - stored.length < 3 := by
          simp only [List.length_append, List.length_cons, List.length_nil] at hi₂
          omega
        have hall : ∀ k : Fin 3, ([false, false, false] : List Bool).get k = false := by decide
        exact (hall ⟨i - stored.length, hk⟩).symm

/-- C3 witness: the reconciliation theorem applied to a concrete 28-entry list
and 31-day month. -/
theorem reconciliation_preserves_by_index_witness :
    (List.replicate 28 true).length = 28 →
      adjustChecks 31 (List.replicate 28 true) = List.replicate 28 true ++ [false, false, false] :=
  (reconciliation_preserves_by_index 31 [] (List.replicate 28 true)).2.2.2.2.2.2

/-- C4: carry-over keeps the habit count and order, copies id, name, icon and
goal, resets every checks list to all-`false` of the new month's length, and the
fresh mental state is all zero. -/
theorem carryOver_resolution (d : Nat) (H : List Habit) :
    (carryOverHabits d H).length = H.length ∧
    (carryOverHabits d H).map (fun h => (h.id, h.name, h.icon, h.goal)) =
      H.map (fun h => (h.id, h.name, h.icon, h.goal)) ∧
    (∀ h ∈ carryOverHabits d H, h.checks = List.replicate d false) ∧
    (generateEmptyMentalState d).length = d ∧
    (∀ e ∈ generateEmptyMentalState d, e.mood = 0 ∧ e.motivation = 0) := by
  refine ⟨by simp [carryOverHabits], ?_, ?_, by simp [generateEmptyMentalState], ?_⟩
  · simp [carryOverHabits, List.map_map]
  · intro h hh
    simp only [carryOverHabits, List.mem_map] at hh
    obtain ⟨a, -, rfl⟩ := hh
    rfl
  · intro e he
    simp only [generateEmptyMentalState, List.mem_map] at he
    obtain ⟨i, -, rfl⟩ := he
    exact ⟨rfl, rfl⟩

/-- C4 witness: carry-over of one concrete checked habit into a 3-day month. -/
theorem carryOver_resolution_witness :
    Habit.checks ⟨"a", "A", "x", 5, List.replicate 3 false⟩ = List.replicate 3 false :=
  (carryOver_resolution 3 [⟨"a", "A", "x", 5, [true, false, true]⟩]).2.2.1 _ (by decide)

/-- C5: with no record for the month and none for the previous month, a fresh
month of `d` days resolves to exactly the fixed ten-habit default template in
template order, goal 30 each, every checks list all-`false` of length `d`. -/
theorem default_resolution_is_template (d : Nat) :
    (defaultHabits d).map (fun h => (h.id, h.name, h.icon, h.goal)) =
      [("1", "Wake up at 05:00", "⏰", 30), ("2", "Gym", "💪", 30),
       ("3", "Reading / Learning", "📖", 30), ("4", "Day Planning", "📝", 30),
       ("5", "Budget Tracking", "💰", 30), ("6", "Project Work", "🚀", 30),
       ("7", "No Alcohol", "🍷", 30), ("8", "Social Media Detox", "🌿", 30),
       ("9", "Goal Journaling", "📔", 30), ("10", "Cold Shower", "🚿", 30)] ∧
    (defaultHabits d).map Habit.checks = List.replicate 10 (List.replicate d false) := by
  exact ⟨rfl, rfl⟩

/-- C5 witness: the default template applied to a concrete 31-day month. -/
theorem default_resolution_is_template_witness :
    (defaultHabits 31).map Habit.checks = List.replicate 10 (List.replicate 31 false) :=
  (default_resolution_is_template 31).2

/-- Entries of `dailyStats` below the month length are `dayStatAt`. -/
theorem dailyStats_getD (d : Nat) (habits : List Habit) (i : Nat) (hi : i < d) :
    (dailyStats d habits).getD i ⟨0, 0, 0, 0⟩ = dayStatAt habits i := by
  have hlt : i < ((List.range d).map (dayStatAt habits)).length := by simpa using hi
  rw [dailyStats, List.getD_eq_getElem _ _ hlt]
  simp

/-- C6: every `dailyStats` row satisfies `done + notDone = habitCount`, `done`
counts the habits checked that day, and `percent` is the rounded ratio when the
habit list is nonempty and 0 when it is empty. -/
theorem dailyStats_invariant (d : Nat) (habits : List Habit) (i : Nat) (hi : i < d) :
    (dailyStats d habits).getD i ⟨0, 0, 0, 0⟩ = dayStatAt habits i ∧
    (dayStatAt habits i).done + (dayStatAt habits i).notDone = habits.length ∧
    (dayStatAt habits i).done = habits.countP (fun h => getIdxJs h.checks i) ∧
    (0 < habits.length → (dayStatAt habits i).percent =
      jsRound ((habits.countP (fun h => getIdxJs h.checks i) : ℚ) / (habits.length : ℚ) * 100)) ∧
    (habits = [] → (dayStatAt habits i).percent = 0) := by
  have hfold : habits.foldl (fun a h => a + (if getIdxJs h.checks i then 1 else 0)) 0 =
      habits.countP (fun h => getIdxJs h.checks i) := by
    simpa using foldl_add_ite_eq_countP (fun h => getIdxJs h.checks i) habits 0
  have hle : habits.countP (fun h => getIdxJs h.checks i) ≤ habits.length :=
    List.countP_le_length _
  refine ⟨dailyStats_getD d habits i hi, ?_, ?_, ?_, ?_⟩
  · simp only [dayStatAt, hfold]
    omega
  · simp only [dayStatAt, hfold]
  · intro hpos
    simp only [dayStatAt, hfold, hpos, if_pos]
  · intro hnil
    subst hnil
    rfl

/-- C6 witness: the invariant applied to a 1-day month with one checked habit. -/
theorem dailyStats_invariant_witness :
    0 < 1 ∧ (dayStatAt [⟨"a", "A", "x", 1, [true]⟩] 0).done +
      (dayStatAt [⟨"a", "A", "x", 1, [true]⟩] 0).notDone = 1 :=
  ⟨by decide, (dailyStats_invariant 1 [⟨"a", "A", "x", 1, [true]⟩] 0 (by decide)).2.1⟩

/-- A written entry keeps its day number. -/
theorem withField_day (e : MentalState) (f : MentalField) (v : Int) :
    (e.withField f v).day = e.day := by
  cases f <;> rfl

/-- A written entry holds the written value in the addressed field. -/
theorem withField_same (e : MentalState) (f : MentalField) (v : Int) :
    (e.withField f v).fieldVal f = v := by
  cases f <;> rfl

/-- A written entry keeps the other field. -/
theorem withField_other (e : MentalState) (f : MentalField) (v : Int) :
    (e.withField f v).fieldVal f.other = e.fieldVal f.other := by
  cases f <;> rfl

/-- `handleMentalChange` keeps the array length. -/
theorem handleMentalChange_length (idx : Nat) (f : MentalField) (raw : String)
    (ms : List MentalState) : (handleMentalChange idx f raw ms).length = ms.length := by
  simp [handleMentalChange]

/-- `handleMentalChange` leaves every other position unchanged. -/
theorem handleMentalChange_getD_ne (idx : Nat) (f : MentalField) (raw : String)
    (ms : List MentalState) (j : Nat) (hj : j ≠ idx) :
    (handleMentalChange idx f raw ms).getD j ⟨0, 0, 0⟩ = ms.getD j ⟨0, 0, 0⟩ := by
  simp [handleMentalChange, List.getD_eq_getElem?_getD, List.getElem?_set_ne (Ne.symm hj)]

/-- The entry `handleMentalChange` writes at an in-range position. -/
theorem handleMentalChange_getD_self (idx : Nat) (f : MentalField) (raw : String)
    (ms : List MentalState) (hidx : idx < ms.length) :
    (handleMentalChange idx f raw ms).getD idx ⟨0, 0, 0⟩ =
      (ms.getD idx ⟨0, 0, 0⟩).withField f (jsMentalNumVal raw) := by
  have hlt : idx < (handleMentalChange idx f raw ms).length := by
    simpa [handleMentalChange_length] using hidx
  rw [List.getD_eq_getElem _ _ hlt, List.getD_eq_getElem _ _ hidx]
  simp [handleMentalChange, List.getElem_set_self, List.getD_eq_getElem?_getD,
    List.getElem?_eq_getElem hidx]

/-- C7: `setMentalValue` stores the parsed value clamped to `[0, 10]` (with the
quoted concrete inputs "15" → 10, "-3" → 0, "" → 0), and writes only the
addressed field of the entry at `dayIndex`: length, every other entry, the day
number and the other field are unchanged. -/
theorem setMentalValue_clamps (ms : List MentalState) (idx : Nat) (field : MentalField)
    (raw : String) (hidx : idx < ms.length) :
    0 ≤ jsMentalNumVal raw ∧ jsMentalNumVal raw ≤ 10 ∧
    jsMentalNumVal "15" = 10 ∧ jsMentalNumVal "-3" = 0 ∧ jsMentalNumVal "" = 0 ∧
    (handleMentalChange idx field raw ms).length = ms.length ∧
    (∀ j, j ≠ idx → (handleMentalChange idx field raw ms).getD j ⟨0, 0, 0⟩ =
      ms.getD j ⟨0, 0, 0⟩) ∧
    ((handleMentalChange idx field raw ms).getD idx ⟨0, 0, 0⟩).day =
      (ms.getD idx ⟨0, 0, 0⟩).day ∧
    ((handleMentalChange idx field raw ms).getD idx ⟨0, 0, 0⟩).fieldVal field =
      jsMentalNumVal raw ∧
    ((handleMentalChange idx field raw ms).getD idx ⟨0, 0, 0⟩).fieldVal field.other =
      (ms.getD idx ⟨0, 0, 0⟩).fieldVal field.other := by
  have hbounds : 0 ≤ jsMentalNumVal raw ∧ jsMentalNumVal raw ≤ 10 := by
    unfold jsMentalNumVal
    split
    · exact ⟨le_refl 0, by norm_num⟩
    · constructor
      · exact le_min (by norm_num) (le_max_left 0 _)
      · exact min_le_left 10 _
  refine ⟨hbounds.1, hbounds.2, by decide, by decide, by decide,
    handleMentalChange_length idx field raw ms,
    fun j hj => handleMentalChange_getD_ne idx field raw ms j hj, ?_, ?_, ?_⟩
  · rw [handleMentalChange_getD_self idx field raw ms hidx, withField_day]
  · rw [handleMentalChange_getD_self idx field raw ms hidx, withField_same]
  · rw [handleMentalChange_getD_self idx field raw ms hidx, withField_other]

/-- C7 witness: storing "15" into the mood of a concrete one-entry state. -/
theorem setMentalValue_clamps_witness :
    0 < 1 ∧ jsMentalNumVal "15" = 10 :=
  ⟨by decide, (setMentalValue_clamps [⟨1, 2, 3⟩] 0 MentalField.mood "15" (by decide)).2.2.1⟩

/-- Entries of `adjustedMental` below the month length. -/
theorem adjustedMental_getD (d : Nat) (stored : List MentalState) (i : Nat) (hi : i < d) :
    (adjustedMental d stored).getD i ⟨0, 0, 0⟩ =
      (stored.find? (fun m => m.day = i + 1)).getD ⟨i + 1, 0, 0⟩ := by
  have hlt : i < (adjustedMental d stored).length := by simp [adjustedMental, hi]
  rw [List.getD_eq_getElem _ _ hlt]
  simp [adjustedMental]

/-- C10: every freshly generated or load-reconciled mental-state array has
length `daysInMonth` with the entry at position `i` carrying day `i + 1`, and
`handleMentalChange` preserves the length, every day number, all other entries
and the untouched field — so positional and by-day addressing coincide. -/
theorem mentalState_day_alignment (d : Nat) (stored : List MentalState)
    (ms : List MentalState) (idx : Nat) (field : MentalField) (raw : String)
    (hidx : idx < ms.length) :
    (generateEmptyMentalState d).length = d ∧
    (∀ i, i < d → ((generateEmptyMentalState d).getD i ⟨0, 0, 0⟩).day = i + 1) ∧
    (adjustedMental d stored).length = d ∧
    (∀ i, i < d → ((adjustedMental d stored).getD i ⟨0, 0, 0⟩).day = i + 1) ∧
    (handleMentalChange idx field raw ms).length = ms.length ∧
    (∀ j, ((handleMentalChange idx field raw ms).getD j ⟨0, 0, 0⟩).day =
      (ms.getD j ⟨0, 0, 0⟩).day) ∧
    (∀ j, j ≠ idx → (handleMentalChange idx field raw ms).getD j ⟨0, 0, 0⟩ =
      ms.getD j ⟨0, 0, 0⟩) ∧
    ((handleMentalChange idx field raw ms).getD idx ⟨0, 0, 0⟩).fieldVal field.other =
      (ms.getD idx ⟨0, 0, 0⟩).fieldVal field.other := by
  refine ⟨by simp [generateEmptyMentalState], ?_, by simp [adjustedMental], ?_,
    handleMentalChange_length idx field raw ms, ?_,
    fun j hj => handleMentalChange_getD_ne idx field raw ms j hj, ?_⟩
  · intro i hi
    have hlt : i < (generateEmptyMentalState d).length := by
      simp [generateEmptyMentalState, hi]
    rw [List.getD_eq_getElem _ _ hlt]
    simp [generateEmptyMentalState]
  · intro i hi
    rw [adjustedMental_getD d stored i hi]
    cases hfind : stored.find? (fun m => m.day = i + 1) with
    | none => rfl
    | some m =>
      have hm := List.find?_some hfind
      simp only [Option.getD_some]
      simpa using hm
  · intro j
    by_cases hj : j = idx
    · subst hj
      rw [handleMentalChange_getD_self j field raw ms hidx, withField_day]
    · rw [handleMentalChange_getD_ne idx field raw ms j hj]
  · rw [handleMentalChange_getD_self idx field raw ms hidx, withField_other]

/-- C10 witness: the alignment applied to a concrete one-entry state. -/
theorem mentalState_day_alignment_witness :
    0 < 1 ∧ (generateEmptyMentalState 3).length = 3 :=
  ⟨by decide, (mentalState_day_alignment 3 [] [⟨1, 2, 3⟩] 0 MentalField.mood "5" (by decide)).1⟩

/-- C8: for every month length 28–31, the week buckets have sizes
`[7, 7, 7, daysInMonth - 21]` and their concatenation is the day indices
`0, …, daysInMonth - 1` in order. -/
theorem weeks_bucket_sizes (d : Nat) (hd : d = 28 ∨ d = 29 ∨ d = 30 ∨ d = 31) :
    (weeks d).map (fun w => w.days.length) = [7, 7, 7, d - 21] ∧
    ((weeks d).map Week.days).flatten = List.range d := by
  rcases hd with rfl | rfl | rfl | rfl
  · exact ⟨by decide, by decide⟩
  · exact ⟨by decide, by decide⟩
  · exact ⟨by decide, by decide⟩
  · exact ⟨by decide, by decide⟩

/-- C8 witness: the bucket shape of a 31-day month is [7, 7, 7, 10]. -/
theorem weeks_bucket_sizes_witness :
    (31 = 28 ∨ 31 = 29 ∨ 31 = 30 ∨ 31 = 31) ∧
      (weeks 31).map (fun w => w.days.length) = [7, 7, 7, 10] :=
  ⟨by decide, (weeks_bucket_sizes 31 (by decide)).1⟩

/-- `toggleHabit` never changes a habit's id. -/
theorem toggleHabit_id (habitId : String) (dayIndex : Nat) (h : Habit) :
    (toggleHabit habitId dayIndex h).id = h.id := by
  unfold toggleHabit
  split
  · rfl
  · rfl

/-- `toggleHabit` on a matching habit rewrites only the checks. -/
theorem toggleHabit_of_id (habitId : String) (dayIndex : Nat) (h : Habit)
    (hid : h.id = habitId) :
    toggleHabit habitId dayIndex h =
      ⟨h.id, h.name, h.icon, h.goal, setIdxJs h.checks dayIndex (!(getIdxJs h.checks dayIndex))⟩ := by
  simp [toggleHabit, hid]

/-- `toggleHabit` on a non-matching habit is the identity. -/
theorem toggleHabit_of_ne (habitId : String) (dayIndex : Nat) (h : Habit)
    (hid : h.id ≠ habitId) : toggleHabit habitId dayIndex h = h := by
  simp [toggleHabit, hid]

/-- C9: toggling the same (habit, day) twice returns the displayed boolean to
its original value — `toggleCheck` is its own inverse on the affected check. -/
theorem toggleCheck_involutive (habits : List Habit) (habitId : String) (dayIndex : Nat) :
    readCheck (toggleCheck habitId dayIndex (toggleCheck habitId dayIndex habits))
        habitId dayIndex =
      readCheck habits habitId dayIndex := by
  unfold readCheck findHabit toggleCheck
  rw [List.map_map, List.find?_map]
  have hp : ((fun h : Habit => decide (h.id = habitId)) ∘
      (toggleHabit habitId dayIndex ∘ toggleHabit habitId dayIndex)) =
      fun h : Habit => decide (h.id = habitId) := by
    funext h
    simp [Function.comp, toggleHabit_id]
  rw [hp]
  cases hfind : habits.find? (fun h => h.id = habitId) with
  | none => rfl
  | some h =>
    have hid : h.id = habitId := by simpa using List.find?_some hfind
    show getIdxJs (toggleHabit habitId dayIndex (toggleHabit habitId dayIndex h)).checks
        dayIndex = getIdxJs h.checks dayIndex
    have hid' : (toggleHabit habitId dayIndex h).id = habitId := by
      rw [toggleHabit_id, hid]
    rw [toggleHabit_of_id habitId dayIndex _ hid']
    simp only [getIdxJs_setIdxJs_self]
    rw [toggleHabit_of_id habitId dayIndex h hid]
    simp only [getIdxJs_setIdxJs_self, Bool.not_not]

/-- C1 counterexample: for a single habit of id "a" whose checks list has
length 2 (a 2-day month), `toggleCheck("a", 2)` addresses a day index outside
`[0, 2)` yet is not a no-op: the habit's checks grow to `[false, false, true]`. -/
theorem toggleCheck_out_of_range_not_noop :
    toggleCheck "a" 2 [⟨"a", "A", "x", 30, [false, false]⟩] ≠
      [⟨"a", "A", "x", 30, [false, false]⟩] ∧
    toggleCheck "a" 2 [⟨"a", "A", "x", 30, [false, false]⟩] =
      [⟨"a", "A", "x", 30, [false, false, true]⟩] :=
  ⟨by decide, by decide⟩

/-- `toggleCheck` with an id matching no habit leaves the list unchanged. -/
theorem toggleCheck_unknown_id (habitId : String) (dayIndex : Nat) :
    ∀ habits : List Habit, (∀ h ∈ habits, h.id ≠ habitId) →
      toggleCheck habitId dayIndex habits = habits := by
  intro habits
  induction habits with
  | nil => intro _; rfl
  | cons x xs ih =>
    intro hall
    unfold toggleCheck at ih ⊢
    rw [List.map_cons, toggleHabit_of_ne habitId dayIndex x (hall x (List.mem_cons_self x xs)),
      ih fun h hh => hall h (List.mem_cons_of_mem x hh)]

/-- C1 amended: unknown habit ids are a no-op and in-range toggles flip exactly
one boolean and nothing else; but an out-of-range `dayIndex` is NOT a no-op —
the matching habit's checks grow to `dayIndex + 1` entries, index `dayIndex`
becoming `true` and the new intermediate slots reading as `false`. -/
theorem toggleCheck_amended (habits : List Habit) (habitId : String) (dayIndex : Nat) :
    ((∀ h ∈ habits, h.id ≠ habitId) → toggleCheck habitId dayIndex habits = habits) ∧
    (toggleCheck habitId dayIndex habits).length = habits.length ∧
    (∀ k, k < habits.length →
      (toggleCheck habitId dayIndex habits).getD k ⟨"", "", "", 0, []⟩ =
        toggleHabit habitId dayIndex (habits.getD k ⟨"", "", "", 0, []⟩)) ∧
    (∀ h : Habit, h.id ≠ habitId → toggleHabit habitId dayIndex h = h) ∧
    (∀ h : Habit, h.id = habitId →
      (toggleHabit habitId dayIndex h).id = h.id ∧
      (toggleHabit habitId dayIndex h).name = h.name ∧
      (toggleHabit habitId dayIndex h).icon = h.icon ∧
      (toggleHabit habitId dayIndex h).goal = h.goal ∧
      (dayIndex < h.checks.length →
        (toggleHabit habitId dayIndex h).checks.length = h.checks.length ∧
        getIdxJs (toggleHabit habitId dayIndex h).checks dayIndex =
          !(getIdxJs h.checks dayIndex) ∧
        (∀ j, j ≠ dayIndex → (toggleHabit habitId dayIndex h).checks.getD j false =
          h.checks.getD j false)) ∧
      (h.checks.length ≤ dayIndex →
        (toggleHabit habitId dayIndex h).checks =
          h.checks ++ List.replicate (dayIndex - h.checks.length) false ++ [true])) := by
  refine ⟨toggleCheck_unknown_id habitId dayIndex habits, by simp [toggleCheck], ?_,
    fun h hne => toggleHabit_of_ne habitId dayIndex h hne, ?_⟩
  · intro k hk
    have hlt : k < (toggleCheck habitId dayIndex habits).length := by
      simpa [toggleCheck] using hk
    rw [List.getD_eq_getElem _ _ hlt, List.getD_eq_getElem _ _ hk]
    simp [toggleCheck]
  · intro h hid
    rw [toggleHabit_of_id habitId dayIndex h hid]
    refine ⟨rfl, rfl, rfl, rfl, ?_, ?_⟩
    · intro hin
      exact ⟨setIdxJs_length h.checks dayIndex _ hin, getIdxJs_setIdxJs_self _ _ _,
        fun j hj => setIdxJs_getD_ne h.checks dayIndex _ hin j hj⟩
    · intro hout
      rw [setIdxJs_out_of_range h.checks dayIndex _ hout]
      have : getIdxJs h.checks dayIndex = false := by
        unfold getIdxJs
        exact List.getD_eq_default _ _ hout
      rw [this]
      simp

/-- C1 amended witness: the amended description applied to a concrete habit
list, discharging the unknown-id case at a concrete non-matching id. -/
theorem toggleCheck_amended_witness :
    toggleCheck "b" 0 [⟨"a", "A", "x", 30, [false, true]⟩] =
      [⟨"a", "A", "x", 30, [false, true]⟩] :=
  (toggleCheck_amended [⟨"a", "A", "x", 30, [false, true]⟩] "b" 0).1 (by decide)

/-- C2 counterexample: for a 2-day month and a habit with stored goal 1 and
both days checked, the sidebar shows 100 — it divides by `daysInMonth` — while
`habitTotal / habit.goal * 100` would be 200 (and could exceed 100). -/
theorem sidebar_percent_ignores_goal :
    sidebarPercent 2 ⟨"a", "A", "x", 1, [true, true]⟩ = 100 ∧
    specHabitProgressPercent ⟨"a", "A", "x", 1, [true, true]⟩ = 200 ∧
    sidebarPercent 2 ⟨"a", "A", "x", 1, [true, true]⟩ ≠
      specHabitProgressPercent ⟨"a", "A", "x", 1, [true, true]⟩ := by
  refine ⟨?_, ?_, ?_⟩
  · norm_num [sidebarPercent, List.countP_cons]
  · norm_num [specHabitProgressPercent, habitTotal, List.countP_cons]
  · norm_num [sidebarPercent, specHabitProgressPercent, habitTotal, List.countP_cons]

/-- C2 amended: the sidebar percentage equals `habitTotal / daysInMonth * 100`;
the habit's stored goal is not consulted, and whenever the checks list has the
month's length the displayed percentage cannot exceed 100. -/
theorem sidebar_percent_amended (d : Nat) (h : Habit) (hd : 0 < d) :
    sidebarPercent d h = (habitTotal h : ℚ) / (d : ℚ) * 100 ∧
    (h.checks.length = d → sidebarPercent d h ≤ 100) := by
  constructor
  · simp [sidebarPercent, habitTotal, hd]
  · intro hlen
    have hcount : habitTotal h ≤ d := hlen ▸ List.countP_le_length _
    have hdq : (0 : ℚ) < (d : ℚ) := by exact_mod_cast hd
    simp only [sidebarPercent, hd, if_pos]
    rw [div_mul_eq_mul_div, div_le_iff₀ hdq]
    have : ((h.checks.countP id : ℚ)) ≤ (d : ℚ) := by
      exact_mod_cast hcount
    nlinarith

/-- C2 amended witness: the amended statement at a concrete habit and month. -/
theorem sidebar_percent_amended_witness :
    0 < 2 ∧ (sidebarPercent 2 ⟨"a", "A", "x", 1, [true, true]⟩ =
      (habitTotal ⟨"a", "A", "x", 1, [true, true]⟩ : ℚ) / (2 : ℚ) * 100 ∧
      ((Habit.checks ⟨"a", "A", "x", 1, [true, true]⟩).length = 2 →
        sidebarPercent 2 ⟨"a", "A", "x", 1, [true, true]⟩ ≤ 100)) :=
  ⟨by decide, sidebar_percent_amended 2 ⟨"a", "A", "x", 1, [true, true]⟩ (by decide)⟩
